import Mathlib

/-!
# envp: environment-variable configuration helpers

A shallow embedding of `envp.go` (package `envp`) and proofs about it.

Modelling conventions.

* A Go `string` is an immutable sequence of bytes; `len` and slicing count bytes.
  It is embedded as `GoString = List UInt8`.  String literals of the source are
  written `gostr "..."`, the UTF-8 bytes of the literal.
* The process environment read by `os.LookupEnv` is a function from keys to
  optional values (`none`: the variable is not set).
* The logger `lvlog` is an external collaborator.  Every call of `log.Infof`,
  `log.Warnf` and `log.Fatalf` is recorded, in order, with its format string and
  its arguments; rendering and level filtering are the logger's business and are
  not modelled.  `log.Fatalf` terminates the process.
* A function of the source becomes a computation in `Outcome`: the calls logged so
  far together with either the returned value or the fact that the process exited.
-/

set_option autoImplicit false

namespace Envp

/-! ## Go strings -/

/-- A Go string: a sequence of bytes. -/
abbrev GoString := List UInt8

/-- The bytes of a string literal (Go source text is UTF-8). -/
def gostr (s : String) : GoString := s.toUTF8.data.toList

/-- The process environment as seen through `os.LookupEnv`. -/
abbrev Environ := GoString → Option GoString

/-- The environment after `os.Setenv(key, value)`; used to build concrete environments. -/
def Setenv (environ : Environ) (key value : GoString) : Environ :=
  fun k => if k = key then some value else environ k

/-- The empty process environment. -/
def emptyEnviron : Environ := fun _ => none

/-! ## The logger and process exit -/

/-- The three logging entry points the package calls. -/
inductive Severity where
  | info
  | warn
  | fatal
  deriving DecidableEq, Repr

/-- One recorded call `log.Xxxf(format, args...)`. -/
structure LogCall (A : Type) where
  severity : Severity
  format : String
  args : List A
  deriving DecidableEq, Repr

/-- The result of running a function of the package: the log calls made, and either
the value returned to the caller or process termination. -/
inductive Outcome (A α : Type) where
  | returned (log : List (LogCall A)) (value : α)
  | exited (log : List (LogCall A))
  deriving DecidableEq, Repr

namespace Outcome

variable {A α β : Type}

/-- The log calls made, in order. -/
def log : Outcome A α → List (LogCall A)
  | returned l _ => l
  | exited l => l

/-- The value handed back to the caller, `none` when the process was terminated. -/
def result : Outcome A α → Option α
  | returned _ v => some v
  | exited _ => none

/-- Sequencing: nothing runs after the process has exited. -/
def bind : Outcome A α → (α → Outcome A β) → Outcome A β
  | exited l, _ => exited l
  | returned l v, f =>
    match f v with
    | returned l2 w => returned (l ++ l2) w
    | exited l2 => exited (l ++ l2)

end Outcome

instance (A : Type) : Monad (Outcome A) where
  pure v := Outcome.returned [] v
  bind := Outcome.bind

/-- The call `log.Infof(format, args...)`. -/
def Infof {A : Type} (format : String) (args : List A) : Outcome A Unit :=
  Outcome.returned [⟨Severity.info, format, args⟩] ()

/-- The call `log.Warnf(format, args...)`. -/
def Warnf {A : Type} (format : String) (args : List A) : Outcome A Unit :=
  Outcome.returned [⟨Severity.warn, format, args⟩] ()

/-- Modelled from the spec: `log.Fatalf` of the external logger `lvlog`, a fatal
(terminating) log operation: the call is recorded and the process exits, so no
statement after it runs. -/
def Fatalf {A : Type} (format : String) (args : List A) : Outcome A Unit :=
  Outcome.exited [⟨Severity.fatal, format, args⟩]

/-- The two causes of a `*strconv.NumError`. -/
inductive NumError where
  | ErrSyntax
  | ErrRange
  deriving DecidableEq, Repr

/-- Arguments handed to the logger by the non-float accessors. -/
inductive Arg where
  | str (s : GoString)
  | strs (l : List GoString)
  | int (n : Int)
  | bool (b : Bool)
  | err (e : NumError)
  deriving DecidableEq, Repr

/-- Arguments handed to the logger by `GetEnvFloat`, over a float type `F`. -/
inductive FloatArg (F : Type) where
  | str (s : GoString)
  | float (x : F)
  | err (e : NumError)
  deriving DecidableEq, Repr

/-! ## Standard-library parsers used by the accessors

`strconv.Atoi` and `strconv.ParseBool` belong to the Go standard library; they are
embedded from its documented behaviour.  A Go result pair `(value, err)` is a Lean
pair whose second component is `none` when `err == nil`. -/

/-- Whether a byte is an ASCII decimal digit. -/
def isDigit (c : UInt8) : Bool := decide (48 ≤ c.toNat) && decide (c.toNat ≤ 57)

/-- The value of a run of decimal digits, most significant first. -/
def digitsValue (s : GoString) : Nat :=
  s.foldl (fun n c => n * 10 + (c.toNat - 48)) 0

/-- Go's `strconv.ParseUint(s, 10, 64)`: the empty text is a syntax error; otherwise the
digits are consumed from the left; an overflow of 64 bits met before any invalid byte is a range error with
the value `2^64 - 1`, an invalid byte met first is a syntax error with the value `0`. -/
def ParseUint (s : GoString) : Nat × Option NumError :=
  if s = [] then (0, some NumError.ErrSyntax)
  else if 2 ^ 64 ≤ digitsValue (s.takeWhile isDigit) then (2 ^ 64 - 1, some NumError.ErrRange)
  else if !s.all isDigit then (0, some NumError.ErrSyntax)
  else (digitsValue s, none)

/-- Go's `strconv.Atoi` where `int` has 64 bits (`ParseInt(s, 10, 0)`; the fast path for
short texts computes the same result): an optional sign `+` or `-`, then decimal digits.
A syntax error gives the value `0`; a magnitude outside `int` gives a range error and the
nearest bound. -/
def Atoi (s : GoString) : Int × Option NumError :=
  if s = [] then (0, some NumError.ErrSyntax)
  else
    let neg : Bool := decide (s.head? = some 45)
    let body : GoString := if s.head? = some 43 ∨ s.head? = some 45 then s.tail else s
    match ParseUint body with
    | (_, some NumError.ErrSyntax) => (0, some NumError.ErrSyntax)
    | (un, _) =>
      if !neg && decide (2 ^ 63 ≤ un) then (2 ^ 63 - 1, some NumError.ErrRange)
      else if neg && decide (2 ^ 63 < un) then (-(2 ^ 63), some NumError.ErrRange)
      else (if neg then -(un : Int) else (un : Int), none)

/-- Go's `strconv.ParseBool`: it accepts exactly `1`, `t`, `T`, `true`, `TRUE`, `True`
(true) and `0`, `f`, `F`, `false`, `FALSE`, `False` (false); any other text is a syntax
error, returned with the value `false`. -/
def ParseBool (str : GoString) : Bool × Option NumError :=
  if str ∈ [gostr "1", gostr "t", gostr "T", gostr "true", gostr "TRUE", gostr "True"] then
    (true, none)
  else if str ∈ [gostr "0", gostr "f", gostr "F", gostr "false", gostr "FALSE", gostr "False"] then
    (false, none)
  else (false, some NumError.ErrSyntax)

/-! ## The accessors of `envp.go` -/

/-- `GetEnvString` gets env var or fallback, and logs return value. -/
def GetEnvString (environ : Environ) (key defaultVal : GoString) : Outcome Arg GoString := do
  if let some value := environ key then
    Infof "$%s=%q" [Arg.str key, Arg.str value]
    return value
  Warnf "$%s=%q (env var not found, using fallback)" [Arg.str key, Arg.str defaultVal]
  return defaultVal

/-- `GetEnvPassword` is `GetEnvString`, but logs `****` and, when `len(value) > 3`, the
slice `value[len(value)-2:]` instead of the value. -/
def GetEnvPassword (environ : Environ) (key defaultVal : GoString) : Outcome Arg GoString := do
  if let some value := environ key then
    let mut logVal := gostr "****"
    if value.length > 3 then
      logVal := logVal ++ value.drop (value.length - 2)
    Infof "$%s=%q" [Arg.str key, Arg.str logVal]
    return value
  Warnf "$%s=%q (env var not found, using fallback)" [Arg.str key, Arg.str defaultVal]
  return defaultVal

/-- `stringInSlice`: linear search for an element equal to `a`. -/
def stringInSlice (a : GoString) : List GoString → Bool
  | [] => false
  | b :: list => if b = a then true else stringInSlice a list

/-- `GetEnvStringFrom` gets env var or fallback, validates that the value is allowed and
logs the return value. -/
def GetEnvStringFrom (environ : Environ) (key defaultVal : GoString)
    (allowedValues : List GoString) : Outcome Arg GoString := do
  if let some value := environ key then
    if stringInSlice value allowedValues then
      Infof "$%s=%q" [Arg.str key, Arg.str value]
      return value
    Fatalf "$%s=%q | Error: Read env var value not allowed. Must be one of: %v"
      [Arg.str key, Arg.str value, Arg.strs allowedValues]
  Warnf "$%s=%q (env var not found, using fallback)" [Arg.str key, Arg.str defaultVal]
  return defaultVal

/-- `GetEnvFloat` gets env var or fallback, validates range and logs return value.  The
float type, `strconv.ParseFloat` and the comparison `<=` on floats are parameters. -/
def GetEnvFloat {F : Type} (ParseFloat : GoString → F × Option NumError) (le : F → F → Bool)
    (environ : Environ) (key : GoString) (defaultVal min max : F) :
    Outcome (FloatArg F) F := do
  if let some envValue := environ key then
    let (result, err) := ParseFloat envValue
    if let some e := err then
      Fatalf "$%s=%v | Error: %v" [FloatArg.str key, FloatArg.str envValue, FloatArg.err e]
    if !(le min result && le result max) then
      Fatalf "$%[1]s=%[2]v | Error: Outside of range: %[3]v <= %[2]v <= %[4]v"
        [FloatArg.str key, FloatArg.float result, FloatArg.float min, FloatArg.float max]
    Infof "$%s=%v" [FloatArg.str key, FloatArg.float result]
    return result
  Warnf "$%s=%v (env var not found, using fallback)" [FloatArg.str key, FloatArg.float defaultVal]
  return defaultVal

/-- `GetEnvInt` gets env var or fallback, validates range and logs return value. -/
def GetEnvInt (environ : Environ) (key : GoString) (defaultVal min max : Int) :
    Outcome Arg Int := do
  if let some envValue := environ key then
    let (result, err) := Atoi envValue
    if let some e := err then
      Fatalf "$%s=%v | Error: %v" [Arg.str key, Arg.str envValue, Arg.err e]
    if !(decide (min ≤ result) && decide (result ≤ max)) then
      Fatalf "$%[1]s=%[2]v | Error: Outside of range: %[3]v <= %[2]v <= %[4]v"
        [Arg.str key, Arg.int result, Arg.int min, Arg.int max]
    Infof "$%s=%v" [Arg.str key, Arg.int result]
    return result
  Warnf "$%s=%v (env var not found, using fallback)" [Arg.str key, Arg.int defaultVal]
  return defaultVal

/-- `GetEnvBool` gets env var or fallback and logs return value. -/
def GetEnvBool (environ : Environ) (key : GoString) (defaultVal : Bool) :
    Outcome Arg Bool := do
  if let some envValue := environ key then
    let (result, err) := ParseBool envValue
    if let some e := err then
      Fatalf "$%s=%v | Error: %v" [Arg.str key, Arg.str envValue, Arg.err e]
    Infof "$%s=%v" [Arg.str key, Arg.bool result]
    return result
  Warnf "$%s=%v (env var not found, using fallback)" [Arg.str key, Arg.bool defaultVal]
  return defaultVal

/-! ## Hydration from `.env` files -/

/-- The key/value pairs a dotenv file parses to (a Go `map[string]string`). -/
abbrev EnvMap := GoString → Option GoString

/-- The files of the working directory, already parsed: `none` for a file that cannot be
read (parsing itself belongs to `godotenv`). -/
abbrev FileSystem := GoString → Option EnvMap

/-- Modelled from the spec: `godotenv.Load(filename)` of the external package `godotenv`.
A missing file is ignored; otherwise every variable of the file that is not already
present in the process environment is set, and present variables are left alone. -/
def godotenvLoad (fs : FileSystem) (filename : GoString) (environ : Environ) : Environ :=
  match fs filename with
  | none => environ
  | some envMap => fun key =>
    match environ key with
    | some value => some value
    | none => envMap key

/-- `LoadEnvFromEnvFiles` reads the `.env*` files as in convention; the result is the
process environment after the call. -/
def LoadEnvFromEnvFiles (fs : FileSystem) (env : GoString) (environ : Environ) : Environ :=
  Id.run do
    let mut env := env
    let mut environ := environ
    if env = gostr "" then
      env := gostr "development"
    environ := godotenvLoad fs (gostr ".env." ++ env ++ gostr ".local") environ
    if env ≠ gostr "test" then
      environ := godotenvLoad fs (gostr ".env.local") environ
    environ := godotenvLoad fs (gostr ".env." ++ env) environ
    environ := godotenvLoad fs (gostr ".env") environ
    return environ

/-! ## Log-level selection -/

/-- The verbosity of the logger: a set of level flags, as a bit mask. -/
abbrev Level := Nat

/-- Modelled from the spec: the level constants of the external logger `lvlog`, one bit
per level; `NORM` is info and everything more severe, `ALL` is every level. -/
def NONE : Level := 0

/-- Modelled from the spec: flag of the fatal level of `lvlog`. -/
def FATAL : Level := 1

/-- Modelled from the spec: flag of the panic level of `lvlog`. -/
def PANIC : Level := 2

/-- Modelled from the spec: flag of the error level of `lvlog`. -/
def ERROR : Level := 4

/-- Modelled from the spec: flag of the warn level of `lvlog`. -/
def WARN : Level := 8

/-- Modelled from the spec: flag of the info level of `lvlog`. -/
def INFO : Level := 16

/-- Modelled from the spec: flag of the debug level of `lvlog`. -/
def DEBUG : Level := 32

/-- Modelled from the spec: flag of the trace level of `lvlog`. -/
def TRACE : Level := 64

/-- Modelled from the spec: the normal verbosity of `lvlog`, info and everything more
severe. -/
def NORM : Level := INFO ||| WARN ||| ERROR ||| PANIC ||| FATAL

/-- Modelled from the spec: the full verbosity of `lvlog`, every level. -/
def ALL : Level := NORM ||| DEBUG ||| TRACE

/-- The seven level flags, most severe first. -/
def levelFlags : List Level := [FATAL, PANIC, ERROR, WARN, INFO, DEBUG, TRACE]

/-- Whether a verbosity enables the level with the given flag. -/
def enables (level flag : Level) : Bool := level &&& flag != 0

/-- `SetLogLevelFromEnv` reads the log level from the environment and sets it.  The
argument `level` is the logger's verbosity before the call, the returned value its
verbosity after the call (`log.SetLevel` overwrites it). -/
def SetLogLevelFromEnv (environ : Environ) (key : GoString) (level : Level) :
    Outcome Arg Level := do
  let mut level := level
  let lv ← GetEnvString environ key (gostr "info")
  if lv = gostr "none" then
    level := NONE
  else if lv = gostr "fatal" then
    level := FATAL
  else if lv = gostr "panic" then
    level := PANIC ||| FATAL
  else if lv = gostr "error" then
    level := ERROR ||| PANIC ||| FATAL
  else if lv = gostr "warn" then
    level := WARN ||| ERROR ||| PANIC ||| FATAL
  else if lv = gostr "info" then
    level := NORM
  else if lv = gostr "debug" then
    level := NORM ||| DEBUG
  else if lv = gostr "trace" then
    level := ALL
  else
    Warnf "loglevel of value=%v does not exist. Leaving default." [Arg.str lv]
  return level

/-- The environment after `os.Unsetenv(key)`; used to build concrete environments. -/
def Unsetenv (environ : Environ) (key : GoString) : Environ :=
  fun k => if k = key then none else environ k

/-! ## Definitions used to state the claims

`specRedacted`, `specBool`, `specCandidates` and `specFirstDefined` follow the wording of
the specification and are compared with the code; `loadAll`, `selectLevel` and
`enabledLevels` are auxiliary. -/

/-- The redacted form in the words of the specification, on text made of characters:
four asterisks followed by the last two characters when the length exceeds 3, otherwise
four asterisks alone. -/
def specRedacted (v : String) : String :=
  if v.length > 3 then "****" ++ String.mk (v.data.drop (v.length - 2)) else "****"

/-- ASCII lower-casing of one byte. -/
def lowerByte (c : UInt8) : UInt8 :=
  if 65 ≤ c.toNat ∧ c.toNat ≤ 90 then c + 32 else c

/-- The boolean a text denotes in the words of the specification: `true`, `1`, `t` and
`false`, `0`, `f`, letter case ignored. -/
def specBool (v : GoString) : Option Bool :=
  if v.map lowerByte ∈ [gostr "true", gostr "1", gostr "t"] then some true
  else if v.map lowerByte ∈ [gostr "false", gostr "0", gostr "f"] then some false
  else none

/-- The candidate files in the words of the specification, in loading order:
`.env.<name>.local`, `.env.local` (skipped when the name is `test`), `.env.<name>` and
`.env`, the empty name standing for `development`. -/
def specCandidates (name : GoString) : List GoString :=
  let n : GoString := if name = gostr "" then gostr "development" else name
  [gostr ".env." ++ n ++ gostr ".local"] ++
    (if name = gostr "test" then [] else [gostr ".env.local"]) ++
    [gostr ".env." ++ n, gostr ".env"]

/-- The value given to a key by the first file of a list that exists and defines the
key, `none` when no file does. -/
def specFirstDefined (fs : FileSystem) (key : GoString) : List GoString → Option GoString
  | [] => none
  | file :: rest =>
    match fs file with
    | none => specFirstDefined fs key rest
    | some envMap =>
      match envMap key with
      | some value => some value
      | none => specFirstDefined fs key rest

/-- Loading a list of files one after the other. -/
def loadAll (fs : FileSystem) (files : List GoString) (environ : Environ) : Environ :=
  files.foldl (fun e file => godotenvLoad fs file e) environ

/-- The levels a verbosity enables, most severe first. -/
def enabledLevels (level : Level) : List Level := levelFlags.filter (enables level)

/-- The verbosity that `SetLogLevelFromEnv` configures for a text, `level` being the
verbosity before the call. -/
def selectLevel (lv : GoString) (level : Level) : Level :=
  if lv = gostr "none" then NONE
  else if lv = gostr "fatal" then FATAL
  else if lv = gostr "panic" then PANIC ||| FATAL
  else if lv = gostr "error" then ERROR ||| PANIC ||| FATAL
  else if lv = gostr "warn" then WARN ||| ERROR ||| PANIC ||| FATAL
  else if lv = gostr "info" then NORM
  else if lv = gostr "debug" then NORM ||| DEBUG
  else if lv = gostr "trace" then ALL
  else level

/-- The file system whose only file is `.env`, holding `A=1`. -/
def fsDotEnvA1 : FileSystem :=
  fun file => if file = gostr ".env" then some (Setenv emptyEnviron (gostr "A") (gostr "1"))
    else none

/-! ## What each accessor does, case by case -/

theorem stringInSlice_iff (a : GoString) (list : List GoString) :
    stringInSlice a list = true ↔ a ∈ list := by
  induction list with
  | nil => simp [stringInSlice]
  | cons b rest ih =>
    by_cases hb : b = a
    · simp [stringInSlice, hb]
    · have hb2 : ¬ a = b := fun h => hb h.symm
      simp [stringInSlice, hb, hb2, ih]

theorem GetEnvString_absent (environ : Environ) (key defaultVal : GoString)
    (h : environ key = none) :
    GetEnvString environ key defaultVal =
      Outcome.returned [⟨Severity.warn, "$%s=%q (env var not found, using fallback)",
        [Arg.str key, Arg.str defaultVal]⟩] defaultVal := by
  simp [GetEnvString, h, bind, pure, Outcome.bind, Warnf]

theorem GetEnvString_present (environ : Environ) (key defaultVal value : GoString)
    (h : environ key = some value) :
    GetEnvString environ key defaultVal =
      Outcome.returned [⟨Severity.info, "$%s=%q", [Arg.str key, Arg.str value]⟩] value := by
  simp [GetEnvString, h, bind, pure, Outcome.bind, Infof]

theorem GetEnvPassword_absent (environ : Environ) (key defaultVal : GoString)
    (h : environ key = none) :
    GetEnvPassword environ key defaultVal =
      Outcome.returned [⟨Severity.warn, "$%s=%q (env var not found, using fallback)",
        [Arg.str key, Arg.str defaultVal]⟩] defaultVal := by
  simp [GetEnvPassword, h, bind, pure, Outcome.bind, Warnf]

theorem GetEnvPassword_present (environ : Environ) (key defaultVal value : GoString)
    (h : environ key = some value) :
    GetEnvPassword environ key defaultVal =
      Outcome.returned [⟨Severity.info, "$%s=%q", [Arg.str key,
        Arg.str (if value.length > 3 then gostr "****" ++ value.drop (value.length - 2)
          else gostr "****")]⟩] value := by
  by_cases hl : value.length > 3 <;>
    simp [GetEnvPassword, h, bind, pure, Outcome.bind, Infof, hl]

theorem GetEnvStringFrom_absent (environ : Environ) (key defaultVal : GoString)
    (allowedValues : List GoString) (h : environ key = none) :
    GetEnvStringFrom environ key defaultVal allowedValues =
      Outcome.returned [⟨Severity.warn, "$%s=%q (env var not found, using fallback)",
        [Arg.str key, Arg.str defaultVal]⟩] defaultVal := by
  simp [GetEnvStringFrom, h, bind, pure, Outcome.bind, Warnf]

theorem GetEnvStringFrom_allowed (environ : Environ) (key defaultVal value : GoString)
    (allowedValues : List GoString) (h : environ key = some value)
    (hin : value ∈ allowedValues) :
    GetEnvStringFrom environ key defaultVal allowedValues =
      Outcome.returned [⟨Severity.info, "$%s=%q", [Arg.str key, Arg.str value]⟩] value := by
  have hs := (stringInSlice_iff value allowedValues).mpr hin
  simp [GetEnvStringFrom, h, hs, bind, pure, Outcome.bind, Infof]

theorem GetEnvStringFrom_refused (environ : Environ) (key defaultVal value : GoString)
    (allowedValues : List GoString) (h : environ key = some value)
    (hin : value ∉ allowedValues) :
    GetEnvStringFrom environ key defaultVal allowedValues =
      Outcome.exited [⟨Severity.fatal,
        "$%s=%q | Error: Read env var value not allowed. Must be one of: %v",
        [Arg.str key, Arg.str value, Arg.strs allowedValues]⟩] := by
  have hs : stringInSlice value allowedValues = false := by
    cases hb : stringInSlice value allowedValues with
    | false => rfl
    | true => exact absurd ((stringInSlice_iff value allowedValues).mp hb) hin
  simp [GetEnvStringFrom, h, hs, bind, pure, Outcome.bind, Fatalf]

theorem GetEnvFloat_absent {F : Type} (ParseFloat : GoString → F × Option NumError)
    (le : F → F → Bool) (environ : Environ) (key : GoString) (defaultVal min max : F)
    (h : environ key = none) :
    GetEnvFloat ParseFloat le environ key defaultVal min max =
      Outcome.returned [⟨Severity.warn, "$%s=%v (env var not found, using fallback)",
        [FloatArg.str key, FloatArg.float defaultVal]⟩] defaultVal := by
  simp [GetEnvFloat, h, bind, pure, Outcome.bind, Warnf]

theorem GetEnvInt_absent (environ : Environ) (key : GoString) (defaultVal min max : Int)
    (h : environ key = none) :
    GetEnvInt environ key defaultVal min max =
      Outcome.returned [⟨Severity.warn, "$%s=%v (env var not found, using fallback)",
        [Arg.str key, Arg.int defaultVal]⟩] defaultVal := by
  simp [GetEnvInt, h, bind, pure, Outcome.bind, Warnf]

theorem GetEnvInt_present_result (environ : Environ) (key envValue : GoString)
    (defaultVal min max : Int) (h : environ key = some envValue) :
    (GetEnvInt environ key defaultVal min max).result =
      if (Atoi envValue).2 = none ∧ min ≤ (Atoi envValue).1 ∧ (Atoi envValue).1 ≤ max
      then some (Atoi envValue).1 else none := by
  unfold GetEnvInt
  simp only [h]
  rcases Atoi envValue with ⟨r, _ | e⟩
  · by_cases h1 : min ≤ r <;> by_cases h2 : r ≤ max <;>
      simp [bind, pure, Outcome.bind, Infof, Fatalf, Outcome.result, h1, h2]
  · simp [bind, pure, Outcome.bind, Infof, Fatalf, Outcome.result]

theorem GetEnvBool_absent (environ : Environ) (key : GoString) (defaultVal : Bool)
    (h : environ key = none) :
    GetEnvBool environ key defaultVal =
      Outcome.returned [⟨Severity.warn, "$%s=%v (env var not found, using fallback)",
        [Arg.str key, Arg.bool defaultVal]⟩] defaultVal := by
  simp [GetEnvBool, h, bind, pure, Outcome.bind, Warnf]

theorem GetEnvBool_present_result (environ : Environ) (key envValue : GoString)
    (defaultVal : Bool) (h : environ key = some envValue) :
    (GetEnvBool environ key defaultVal).result =
      if (ParseBool envValue).2 = none then some (ParseBool envValue).1 else none := by
  unfold GetEnvBool
  simp only [h]
  rcases ParseBool envValue with ⟨r, _ | e⟩ <;>
    simp [bind, pure, Outcome.bind, Infof, Fatalf, Outcome.result]

/-! ## Absent keys -/

/-- C1: for a key that is absent from the environment, each of `GetEnvString`,
`GetEnvPassword`, `GetEnvStringFrom`, `GetEnvFloat`, `GetEnvInt` and `GetEnvBool` returns
exactly the supplied default value and does not terminate, whatever the constraints: the
default need not lie in the range and need not be an allowed value. -/
theorem C1_absent_key_returns_default {F : Type}
    (ParseFloat : GoString → F × Option NumError) (le : F → F → Bool)
    (environ : Environ) (key : GoString) (h : environ key = none)
    (defaultStr : GoString) (allowedValues : List GoString)
    (defaultFloat fmin fmax : F) (defaultInt imin imax : Int) (defaultBool : Bool) :
    (GetEnvString environ key defaultStr).result = some defaultStr ∧
    (GetEnvPassword environ key defaultStr).result = some defaultStr ∧
    (GetEnvStringFrom environ key defaultStr allowedValues).result = some defaultStr ∧
    (GetEnvFloat ParseFloat le environ key defaultFloat fmin fmax).result = some defaultFloat ∧
    (GetEnvInt environ key defaultInt imin imax).result = some defaultInt ∧
    (GetEnvBool environ key defaultBool).result = some defaultBool := by
  rw [GetEnvString_absent environ key defaultStr h,
    GetEnvPassword_absent environ key defaultStr h,
    GetEnvStringFrom_absent environ key defaultStr allowedValues h,
    GetEnvFloat_absent ParseFloat le environ key defaultFloat fmin fmax h,
    GetEnvInt_absent environ key defaultInt imin imax h,
    GetEnvBool_absent environ key defaultBool h]
  simp [Outcome.result]

/-- C1 at a concrete input: the empty environment, a default `zzz` outside the allowed
values `dev`, `prod`, and a default `50` outside the range from `1` to `10`; integers
stand in for floats. -/
theorem C1_absent_key_returns_default_witness :
    emptyEnviron (gostr "X") = none ∧
    (GetEnvStringFrom emptyEnviron (gostr "X") (gostr "zzz") [gostr "dev", gostr "prod"]).result
      = some (gostr "zzz") ∧
    (GetEnvInt emptyEnviron (gostr "X") 50 1 10).result = some 50 :=
  have w := C1_absent_key_returns_default (fun _ => ((0 : Int), none))
    (fun a b => decide (a ≤ b)) emptyEnviron (gostr "X") rfl (gostr "zzz")
    [gostr "dev", gostr "prod"] 50 1 10 50 1 10 true
  ⟨rfl, w.2.2.1, w.2.2.2.2.1⟩

/-! ## Present keys: integers -/

/-- C2: for a key present with text `t`, `GetEnvInt` returns `n` exactly when `t` parses
(by `strconv.Atoi`, without error) as the integer `n` and `min <= n <= max`, both bounds
inclusive; in every other case (parse error, `n < min`, `n > max`) the process is
terminated and nothing, in particular not the default, is returned. -/
theorem C2_GetEnvInt_present (environ : Environ) (key t : GoString)
    (defaultVal min max : Int) (h : environ key = some t) :
    (∀ n : Int, (GetEnvInt environ key defaultVal min max).result = some n ↔
      (Atoi t = (n, none) ∧ min ≤ n ∧ n ≤ max)) ∧
    (((Atoi t).2 ≠ none ∨ (Atoi t).1 < min ∨ max < (Atoi t).1) →
      (GetEnvInt environ key defaultVal min max).result = none) := by
  rw [GetEnvInt_present_result environ key t defaultVal min max h]
  rcases Atoi t with ⟨r, e⟩
  constructor
  · intro n
    by_cases hc : e = none ∧ min ≤ r ∧ r ≤ max
    · rw [if_pos hc]
      obtain ⟨he, h1, h2⟩ := hc
      subst he
      constructor
      · intro hn
        have hrn : r = n := Option.some.inj hn
        subst hrn
        exact ⟨rfl, h1, h2⟩
      · rintro ⟨hp, -, -⟩
        have hrn : r = n := congrArg Prod.fst hp
        rw [hrn]
    · rw [if_neg hc]
      constructor
      · intro hn
        exact absurd hn (by simp)
      · rintro ⟨hp, h1, h2⟩
        have hrn : r = n := congrArg Prod.fst hp
        have he : e = none := congrArg Prod.snd hp
        subst hrn
        exact absurd ⟨he, h1, h2⟩ hc
  · intro hbad
    have hc : ¬ (e = none ∧ min ≤ r ∧ r ≤ max) := by
      rintro ⟨he, h1, h2⟩
      rcases hbad with hb | hb | hb
      · exact hb he
      · exact absurd h1 (not_le.mpr hb)
      · exact absurd h2 (not_le.mpr hb)
    rw [if_neg hc]

/-- C2 at the inputs of the specification: `GetEnvInt("X", 5, 1, 10)` with `X=11`
terminates the process and with `X=10` returns `10`. -/
theorem C2_GetEnvInt_present_witness :
    (GetEnvInt (Setenv emptyEnviron (gostr "X") (gostr "11")) (gostr "X") 5 1 10).result = none ∧
    (GetEnvInt (Setenv emptyEnviron (gostr "X") (gostr "10")) (gostr "X") 5 1 10).result
      = some 10 :=
  ⟨(C2_GetEnvInt_present (Setenv emptyEnviron (gostr "X") (gostr "11")) (gostr "X")
      (gostr "11") 5 1 10 (by decide)).2 (by decide),
   ((C2_GetEnvInt_present (Setenv emptyEnviron (gostr "X") (gostr "10")) (gostr "X")
      (gostr "10") 5 1 10 (by decide)).1 10).mpr (by decide)⟩

/-! ## Present keys: allowed values -/

/-- C3: for a key present with value `v` and an allowed-value list `L`,
`GetEnvStringFrom` returns `v` exactly when `v` is equal, byte for byte, to an element of
`L`; otherwise the process is terminated and nothing, in particular not the default, is
returned. -/
theorem C3_GetEnvStringFrom_present (environ : Environ) (key defaultVal v : GoString)
    (allowedValues : List GoString) (h : environ key = some v) :
    ((GetEnvStringFrom environ key defaultVal allowedValues).result = some v ↔
      v ∈ allowedValues) ∧
    (v ∉ allowedValues →
      (GetEnvStringFrom environ key defaultVal allowedValues).result = none) := by
  by_cases hin : v ∈ allowedValues
  · rw [GetEnvStringFrom_allowed environ key defaultVal v allowedValues h hin]
    simp [Outcome.result, hin]
  · rw [GetEnvStringFrom_refused environ key defaultVal v allowedValues h hin]
    simp [Outcome.result, hin]

/-- C3 at the inputs of the specification: `GetEnvStringFrom("MODE", "dev", ["dev",
"prod"])` with `MODE=staging` terminates the process and with `MODE=prod` returns
`prod`; the upper-case `PROD` is refused as well. -/
theorem C3_GetEnvStringFrom_present_witness :
    (GetEnvStringFrom (Setenv emptyEnviron (gostr "MODE") (gostr "staging")) (gostr "MODE")
      (gostr "dev") [gostr "dev", gostr "prod"]).result = none ∧
    (GetEnvStringFrom (Setenv emptyEnviron (gostr "MODE") (gostr "prod")) (gostr "MODE")
      (gostr "dev") [gostr "dev", gostr "prod"]).result = some (gostr "prod") ∧
    (GetEnvStringFrom (Setenv emptyEnviron (gostr "MODE") (gostr "PROD")) (gostr "MODE")
      (gostr "dev") [gostr "dev", gostr "prod"]).result = none :=
  ⟨(C3_GetEnvStringFrom_present (Setenv emptyEnviron (gostr "MODE") (gostr "staging"))
      (gostr "MODE") (gostr "dev") (gostr "staging") [gostr "dev", gostr "prod"]
      (by decide)).2 (by decide),
   (C3_GetEnvStringFrom_present (Setenv emptyEnviron (gostr "MODE") (gostr "prod"))
      (gostr "MODE") (gostr "dev") (gostr "prod") [gostr "dev", gostr "prod"]
      (by decide)).1.mpr (by decide),
   (C3_GetEnvStringFrom_present (Setenv emptyEnviron (gostr "MODE") (gostr "PROD"))
      (gostr "MODE") (gostr "dev") (gostr "PROD") [gostr "dev", gostr "prod"]
      (by decide)).2 (by decide)⟩

/-! ## Present keys: passwords -/

theorem gostr_append (a b : String) : gostr (a ++ b) = gostr a ++ gostr b := by
  simp [gostr, String.toUTF8]

theorem gostr_ascii (s : String) (h : ∀ c ∈ s.data, c.val ≤ 0x7f) :
    gostr s = s.data.map (fun c => c.val.toUInt8) := by
  obtain ⟨l⟩ := s
  simp only [gostr, String.toUTF8]
  induction l with
  | nil => rfl
  | cons c rest ih =>
    have hc : c.val ≤ 0x7f := h c (by simp)
    have ih2 := ih (fun d hd => h d (by simp [hd]))
    simp only [List.flatMap_cons, List.map_cons, ih2, String.utf8EncodeChar, hc, if_true]
    rfl

/-- For a value made of ASCII characters only, bytes and characters coincide: the value
text logged by `GetEnvPassword` is the redacted form in the words of the specification. -/
theorem GetEnvPassword_log_ascii (environ : Environ) (key defaultVal : GoString) (s : String)
    (h : environ key = some (gostr s)) (hs : ∀ c ∈ s.data, c.val ≤ 0x7f) :
    (GetEnvPassword environ key defaultVal).log =
      [⟨Severity.info, "$%s=%q", [Arg.str key, Arg.str (gostr (specRedacted s))]⟩] := by
  rw [GetEnvPassword_present environ key defaultVal (gostr s) h]
  have hlen : (gostr s).length = s.length := by
    rw [gostr_ascii s hs, List.length_map]
    rfl
  have hval : (if (gostr s).length > 3 then gostr "****" ++ (gostr s).drop ((gostr s).length - 2)
      else gostr "****") = gostr (specRedacted s) := by
    rw [hlen]
    unfold specRedacted
    by_cases hl : s.length > 3
    · rw [if_pos hl, if_pos hl, gostr_append]
      congr 1
      have hd : ∀ c ∈ (String.mk (s.data.drop (s.length - 2))).data, c.val ≤ 0x7f :=
        fun c hc => hs c (List.mem_of_mem_drop hc)
      rw [gostr_ascii _ hd, gostr_ascii s hs, List.map_drop]
    · rw [if_neg hl, if_neg hl]
  rw [hval]
  rfl

/-- The log of `GetEnvPassword` depends on the value only through whether its length
exceeds 3 and through its last two bytes. -/
theorem GetEnvPassword_log_depends_on_tail (environ1 environ2 : Environ)
    (key defaultVal1 defaultVal2 v w : GoString)
    (h1 : environ1 key = some v) (h2 : environ2 key = some w)
    (hlen : v.length > 3 ↔ w.length > 3)
    (htail : v.drop (v.length - 2) = w.drop (w.length - 2)) :
    (GetEnvPassword environ1 key defaultVal1).log =
      (GetEnvPassword environ2 key defaultVal2).log := by
  rw [GetEnvPassword_present environ1 key defaultVal1 v h1,
    GetEnvPassword_present environ2 key defaultVal2 w h2]
  by_cases hl : v.length > 3
  · simp [Outcome.log, hl, hlen.mp hl, htail]
  · have hw : ¬ w.length > 3 := fun hw => hl (hlen.mpr hw)
    simp [Outcome.log, hl, hw]

/-- C4, refuted as stated: with `P=****ef` the value text that `GetEnvPassword` logs is
`****ef`, the full value. -/
theorem C4_password_logged_in_full :
    (GetEnvPassword (Setenv emptyEnviron (gostr "P") (gostr "****ef")) (gostr "P")
      (gostr "x")).log =
      [⟨Severity.info, "$%s=%q", [Arg.str (gostr "P"), Arg.str (gostr "****ef")]⟩] := by
  decide

/-- C4, amended: for a key present with value `v`, `GetEnvPassword` logs one call whose
value text differs from `v` unless `v` itself is `****` followed by exactly two bytes;
for a value of that shape, and only then, the redacted form coincides with `v`. -/
theorem C4_password_log_redacted (environ : Environ) (key defaultVal v : GoString)
    (h : environ key = some v) :
    ∃ logVal : GoString,
      (GetEnvPassword environ key defaultVal).log =
        [⟨Severity.info, "$%s=%q", [Arg.str key, Arg.str logVal]⟩] ∧
      (logVal = v ↔ (v.length = 6 ∧ v.take 4 = gostr "****")) := by
  rw [GetEnvPassword_present environ key defaultVal v h]
  refine ⟨_, rfl, ?_⟩
  have h4 : (gostr "****").length = 4 := by decide
  by_cases hl : v.length > 3
  · rw [if_pos hl]
    constructor
    · intro he
      have hlen := congrArg List.length he
      rw [List.length_append, List.length_drop, h4] at hlen
      have h6 : v.length = 6 := by omega
      refine ⟨h6, ?_⟩
      have ht := congrArg (List.take 4) he
      rw [List.take_left' h4] at ht
      exact ht.symm
    · rintro ⟨h6, ht⟩
      have hsplit := List.take_append_drop 4 v
      rw [ht] at hsplit
      rw [h6]
      exact hsplit
  · rw [if_neg hl]
    constructor
    · intro he
      have hlen := congrArg List.length he
      rw [h4] at hlen
      omega
    · rintro ⟨h6, -⟩
      omega

/-- C4 at the input of the specification: `P=abcdef` is not of the shape `****` plus
two bytes, so the logged value text is not `abcdef`. -/
theorem C4_password_log_redacted_witness :
    ∃ logVal : GoString,
      (GetEnvPassword (Setenv emptyEnviron (gostr "P") (gostr "abcdef")) (gostr "P")
        (gostr "x")).log = [⟨Severity.info, "$%s=%q", [Arg.str (gostr "P"), Arg.str logVal]⟩] ∧
      logVal ≠ gostr "abcdef" :=
  (C4_password_log_redacted (Setenv emptyEnviron (gostr "P") (gostr "abcdef")) (gostr "P")
    (gostr "x") (gostr "abcdef") (by decide)).imp
    (fun _ hw => ⟨hw.1, fun he => absurd (hw.2.mp he) (by decide)⟩)

/-- C5, refuted as stated: with `P=abcé` (four characters, the last one two bytes long)
the logged value text is `****é`, the mask and the last two bytes, whereas the last two
characters give `****cé`; with `P=éé` (two characters, four bytes) the logged value text
is `****é`, whereas a length of 3 or less gives `****`. -/
theorem C5_password_log_counts_bytes :
    (GetEnvPassword (Setenv emptyEnviron (gostr "P") (gostr "abcé")) (gostr "P")
      (gostr "x")).log =
      [⟨Severity.info, "$%s=%q", [Arg.str (gostr "P"), Arg.str (gostr "****é")]⟩] ∧
    specRedacted "abcé" = "****cé" ∧
    gostr "****é" ≠ gostr (specRedacted "abcé") ∧
    (GetEnvPassword (Setenv emptyEnviron (gostr "P") (gostr "éé")) (gostr "P")
      (gostr "x")).log =
      [⟨Severity.info, "$%s=%q", [Arg.str (gostr "P"), Arg.str (gostr "****é")]⟩] ∧
    specRedacted "éé" = "****" ∧
    gostr "****é" ≠ gostr (specRedacted "éé") := by
  decide

/-- C5, amended: for a key present with value `v`, `GetEnvPassword` returns `v` unchanged
and logs one call whose value text is `****` followed by the last two bytes of `v` when
the byte length of `v` exceeds 3, and exactly `****` when the byte length is 3 or less. -/
theorem C5_password_result_and_log (environ : Environ) (key defaultVal v : GoString)
    (h : environ key = some v) :
    (GetEnvPassword environ key defaultVal).result = some v ∧
    (v.length > 3 →
      (GetEnvPassword environ key defaultVal).log =
        [⟨Severity.info, "$%s=%q",
          [Arg.str key, Arg.str (gostr "****" ++ v.drop (v.length - 2))]⟩] ∧
      (v.drop (v.length - 2)).length = 2 ∧ v.drop (v.length - 2) <:+ v) ∧
    (v.length ≤ 3 →
      (GetEnvPassword environ key defaultVal).log =
        [⟨Severity.info, "$%s=%q", [Arg.str key, Arg.str (gostr "****")]⟩]) := by
  rw [GetEnvPassword_present environ key defaultVal v h]
  refine ⟨rfl, ?_, ?_⟩
  · intro hl
    refine ⟨?_, ?_, List.drop_suffix _ v⟩
    · simp [Outcome.log, hl]
    · rw [List.length_drop]
      omega
  · intro hl
    have hn : ¬ v.length > 3 := by omega
    simp [Outcome.log, hn]

/-- C5 at the input of the specification: with `P=abcdef` the value `abcdef` is returned
and the logged value text is `****ef`. -/
theorem C5_password_result_and_log_witness :
    (GetEnvPassword (Setenv emptyEnviron (gostr "P") (gostr "abcdef")) (gostr "P")
      (gostr "x")).result = some (gostr "abcdef") ∧
    (GetEnvPassword (Setenv emptyEnviron (gostr "P") (gostr "abcdef")) (gostr "P")
      (gostr "x")).log =
      [⟨Severity.info, "$%s=%q", [Arg.str (gostr "P"), Arg.str (gostr "****ef")]⟩] :=
  have w := C5_password_result_and_log (Setenv emptyEnviron (gostr "P") (gostr "abcdef"))
    (gostr "P") (gostr "x") (gostr "abcdef") (by decide)
  ⟨w.1, (w.2.1 (by decide)).1⟩

/-! ## Present keys: booleans -/

/-- C6, refuted as stated: `tRUE` is `true` when letter case is ignored, yet with
`B=tRUE` `GetEnvBool` terminates the process. -/
theorem C6_mixed_case_terminates :
    specBool (gostr "tRUE") = some true ∧
    (GetEnvBool (Setenv emptyEnviron (gostr "B") (gostr "tRUE")) (gostr "B") false).result
      = none := by
  decide

/-- C6, amended: for a key present with value `v`, `GetEnvBool` returns true when `v` is
exactly one of `1`, `t`, `T`, `true`, `TRUE`, `True`, returns false when `v` is exactly
one of `0`, `f`, `F`, `false`, `FALSE`, `False`, and terminates the process for every
other value; whenever it returns, the boolean is the one the text denotes with letter
case ignored. -/
theorem C6_GetEnvBool_present (environ : Environ) (key v : GoString) (defaultVal : Bool)
    (h : environ key = some v) :
    (v ∈ [gostr "1", gostr "t", gostr "T", gostr "true", gostr "TRUE", gostr "True"] →
      (GetEnvBool environ key defaultVal).result = some true) ∧
    (v ∈ [gostr "0", gostr "f", gostr "F", gostr "false", gostr "FALSE", gostr "False"] →
      (GetEnvBool environ key defaultVal).result = some false) ∧
    (v ∉ [gostr "1", gostr "t", gostr "T", gostr "true", gostr "TRUE", gostr "True"] →
      v ∉ [gostr "0", gostr "f", gostr "F", gostr "false", gostr "FALSE", gostr "False"] →
      (GetEnvBool environ key defaultVal).result = none) ∧
    (∀ b : Bool, (GetEnvBool environ key defaultVal).result = some b → specBool v = some b) := by
  rw [GetEnvBool_present_result environ key v defaultVal h]
  refine ⟨?_, ?_, ?_, ?_⟩
  · intro ht
    simp only [ParseBool, if_pos ht]
    rfl
  · intro hf
    have ht : v ∉ [gostr "1", gostr "t", gostr "T", gostr "true", gostr "TRUE", gostr "True"] := by
      intro ht
      simp only [List.mem_cons, List.mem_singleton, List.not_mem_nil, or_false] at hf ht
      rcases hf with hf | hf | hf | hf | hf | hf <;> subst hf <;> revert ht <;> decide
    simp only [ParseBool, if_neg ht, if_pos hf]
    rfl
  · intro ht hf
    simp only [ParseBool, if_neg ht, if_neg hf]
    rfl
  · intro b
    by_cases ht : v ∈ [gostr "1", gostr "t", gostr "T", gostr "true", gostr "TRUE", gostr "True"]
    · simp only [ParseBool, if_pos ht]
      intro hb
      have hb2 : true = b := Option.some.inj hb
      subst hb2
      simp only [List.mem_cons, List.mem_singleton, List.not_mem_nil, or_false] at ht
      rcases ht with ht | ht | ht | ht | ht | ht <;> subst ht <;> decide
    · by_cases hf : v ∈ [gostr "0", gostr "f", gostr "F", gostr "false", gostr "FALSE",
          gostr "False"]
      · simp only [ParseBool, if_neg ht, if_pos hf]
        intro hb
        have hb2 : false = b := Option.some.inj hb
        subst hb2
        simp only [List.mem_cons, List.mem_singleton, List.not_mem_nil, or_false] at hf
        rcases hf with hf | hf | hf | hf | hf | hf <;> subst hf <;> decide
      · simp only [ParseBool, if_neg ht, if_neg hf]
        intro hb
        exact absurd hb (by simp)

/-- C6 at concrete inputs: `B=True` gives true, `B=0` gives false, `B=yes` terminates the
process. -/
theorem C6_GetEnvBool_present_witness :
    (GetEnvBool (Setenv emptyEnviron (gostr "B") (gostr "True")) (gostr "B") false).result
      = some true ∧
    (GetEnvBool (Setenv emptyEnviron (gostr "B") (gostr "0")) (gostr "B") true).result
      = some false ∧
    (GetEnvBool (Setenv emptyEnviron (gostr "B") (gostr "yes")) (gostr "B") true).result
      = none :=
  ⟨(C6_GetEnvBool_present (Setenv emptyEnviron (gostr "B") (gostr "True")) (gostr "B")
      (gostr "True") false (by decide)).1 (by decide),
   (C6_GetEnvBool_present (Setenv emptyEnviron (gostr "B") (gostr "0")) (gostr "B")
      (gostr "0") true (by decide)).2.1 (by decide),
   (C6_GetEnvBool_present (Setenv emptyEnviron (gostr "B") (gostr "yes")) (gostr "B")
      (gostr "yes") true (by decide)).2.2.1 (by decide) (by decide)⟩

/-! ## Hydration -/

theorem godotenvLoad_present (fs : FileSystem) (file : GoString) (environ : Environ)
    (key value : GoString) (h : environ key = some value) :
    godotenvLoad fs file environ key = some value := by
  unfold godotenvLoad
  cases fs file with
  | none => exact h
  | some envMap => simp [h]

theorem godotenvLoad_absent (fs : FileSystem) (file : GoString) (environ : Environ)
    (key : GoString) (h : environ key = none) :
    godotenvLoad fs file environ key = (fs file).bind (fun envMap => envMap key) := by
  unfold godotenvLoad
  cases fs file with
  | none => simpa using h
  | some envMap => simp [h]

theorem loadAll_present (fs : FileSystem) (files : List GoString) (environ : Environ)
    (key value : GoString) (h : environ key = some value) :
    loadAll fs files environ key = some value := by
  induction files generalizing environ with
  | nil => exact h
  | cons file rest ih =>
    exact ih (godotenvLoad fs file environ) (godotenvLoad_present fs file environ key value h)

theorem loadAll_absent (fs : FileSystem) (files : List GoString) (environ : Environ)
    (key : GoString) (h : environ key = none) :
    loadAll fs files environ key = specFirstDefined fs key files := by
  induction files generalizing environ with
  | nil => exact h
  | cons file rest ih =>
    have hstep := godotenvLoad_absent fs file environ key h
    show loadAll fs rest (godotenvLoad fs file environ) key = specFirstDefined fs key (file :: rest)
    cases hf : fs file with
    | none =>
      have hspec : specFirstDefined fs key (file :: rest) = specFirstDefined fs key rest := by
        simp [specFirstDefined, hf]
      rw [hf] at hstep
      rw [hspec]
      exact ih _ hstep
    | some envMap =>
      rw [hf] at hstep
      cases hk : envMap key with
      | none =>
        have hspec : specFirstDefined fs key (file :: rest) = specFirstDefined fs key rest := by
          simp [specFirstDefined, hf, hk]
        have hstep2 : godotenvLoad fs file environ key = none := by
          rw [hstep]
          simpa using hk
        rw [hspec]
        exact ih _ hstep2
      | some value =>
        have hspec : specFirstDefined fs key (file :: rest) = some value := by
          simp [specFirstDefined, hf, hk]
        have hstep2 : godotenvLoad fs file environ key = some value := by
          rw [hstep]
          simpa using hk
        rw [hspec]
        exact loadAll_present fs rest _ key value hstep2

theorem LoadEnvFromEnvFiles_eq_loadAll (fs : FileSystem) (env : GoString) (environ : Environ) :
    LoadEnvFromEnvFiles fs env environ = loadAll fs (specCandidates env) environ := by
  have hdt : gostr "development" ≠ gostr "test" := by decide
  by_cases he : env = gostr ""
  · subst he
    have hne : gostr "" ≠ gostr "test" := by decide
    simp [LoadEnvFromEnvFiles, specCandidates, loadAll, Id.run, hdt, hne]
  · by_cases ht : env = gostr "test"
    · subst ht
      simp [LoadEnvFromEnvFiles, specCandidates, loadAll, Id.run, he]
    · simp [LoadEnvFromEnvFiles, specCandidates, loadAll, Id.run, he, ht]

/-- C7: whatever the environment name and the contents of the candidate files,
`LoadEnvFromEnvFiles` leaves every variable that was already set in the process
environment with its original value, and a variable whose resolution differs after the
call was not set before it. -/
theorem C7_existing_variables_win (fs : FileSystem) (env : GoString) (environ : Environ) :
    (∀ key value : GoString, environ key = some value →
      LoadEnvFromEnvFiles fs env environ key = some value) ∧
    (∀ key : GoString, LoadEnvFromEnvFiles fs env environ key ≠ environ key →
      environ key = none) := by
  rw [LoadEnvFromEnvFiles_eq_loadAll]
  have hkeep : ∀ key value : GoString, environ key = some value →
      loadAll fs (specCandidates env) environ key = some value :=
    fun key value h => loadAll_present fs (specCandidates env) environ key value h
  refine ⟨hkeep, ?_⟩
  intro key hne
  cases hk : environ key with
  | none => rfl
  | some value =>
    rw [hk, hkeep key value hk] at hne
    exact absurd rfl hne

/-- C7 at the input of the specification: `.env` contains `A=1` and `A=2` is already set;
after hydration `A` resolves to `2`. -/
theorem C7_existing_variables_win_witness :
    LoadEnvFromEnvFiles fsDotEnvA1 (gostr "production")
      (Setenv emptyEnviron (gostr "A") (gostr "2")) (gostr "A") = some (gostr "2") :=
  (C7_existing_variables_win fsDotEnvA1 (gostr "production")
    (Setenv emptyEnviron (gostr "A") (gostr "2"))).1 (gostr "A") (gostr "2") (by decide)

/-- C8: for a key not set before hydration, after `LoadEnvFromEnvFiles(name)` the key
resolves to the value given by the first file, in the order `.env.<name>.local`,
`.env.local`, `.env.<name>`, `.env`, that exists and defines the key, and stays unset if
none does; `.env.local` is skipped exactly when the name is `test`, and the empty name
behaves as `development`. -/
theorem C8_first_defining_file_wins (fs : FileSystem) (env : GoString) (environ : Environ) :
    (∀ key : GoString, environ key = none →
      LoadEnvFromEnvFiles fs env environ key = specFirstDefined fs key (specCandidates env)) ∧
    LoadEnvFromEnvFiles fs (gostr "") environ =
      LoadEnvFromEnvFiles fs (gostr "development") environ ∧
    (gostr ".env.local" ∈ specCandidates env ↔ env ≠ gostr "test") := by
  refine ⟨?_, ?_, ?_⟩
  · intro key h
    rw [LoadEnvFromEnvFiles_eq_loadAll]
    exact loadAll_absent fs (specCandidates env) environ key h
  · rw [LoadEnvFromEnvFiles_eq_loadAll, LoadEnvFromEnvFiles_eq_loadAll]
    have hc : specCandidates (gostr "") = specCandidates (gostr "development") := by decide
    rw [hc]
  · by_cases ht : env = gostr "test"
    · subst ht
      decide
    · simp [specCandidates, ht]

/-- C8 at the input of the specification: `.env` contains `A=1` and `A` is not set; after
hydration `A` resolves to `1`. -/
theorem C8_first_defining_file_wins_witness :
    LoadEnvFromEnvFiles fsDotEnvA1 (gostr "production") emptyEnviron (gostr "A")
      = some (gostr "1") :=
  ((C8_first_defining_file_wins fsDotEnvA1 (gostr "production") emptyEnviron).1 (gostr "A")
    rfl).trans (by decide)

/-! ## Log-level selection -/

theorem SetLogLevelFromEnv_result (environ : Environ) (key : GoString) (level : Level) :
    (SetLogLevelFromEnv environ key level).result =
      some (selectLevel ((environ key).getD (gostr "info")) level) := by
  cases h : environ key with
  | none =>
    have hi : selectLevel (gostr "info") level = NORM := rfl
    rw [Option.getD_none, hi]
    unfold SetLogLevelFromEnv
    rw [GetEnvString_absent environ key (gostr "info") h]
    rfl
  | some v =>
    rw [Option.getD_some]
    unfold SetLogLevelFromEnv
    rw [GetEnvString_present environ key (gostr "info") v h]
    unfold selectLevel
    simp only [bind, pure, Outcome.bind, Warnf]
    split_ifs <;> rfl

/-- C9: for a key whose value is present and is none of the literals `none`, `fatal`,
`panic`, `error`, `warn`, `info`, `debug`, `trace`, `SetLogLevelFromEnv` returns without
terminating the process, leaves the verbosity as it was, and calls the warning log
operation (after the info call of the string accessor). -/
theorem C9_unrecognised_level_unchanged (environ : Environ) (key v : GoString) (level : Level)
    (h : environ key = some v)
    (hv : v ∉ [gostr "none", gostr "fatal", gostr "panic", gostr "error", gostr "warn",
      gostr "info", gostr "debug", gostr "trace"]) :
    SetLogLevelFromEnv environ key level =
      Outcome.returned
        [⟨Severity.info, "$%s=%q", [Arg.str key, Arg.str v]⟩,
         ⟨Severity.warn, "loglevel of value=%v does not exist. Leaving default.",
           [Arg.str v]⟩]
        level := by
  simp only [List.mem_cons, List.mem_singleton, List.not_mem_nil, or_false, not_or] at hv
  obtain ⟨h1, h2, h3, h4, h5, h6, h7, h8⟩ := hv
  unfold SetLogLevelFromEnv
  rw [GetEnvString_present environ key (gostr "info") v h]
  simp [bind, pure, Outcome.bind, Warnf, h1, h2, h3, h4, h5, h6, h7, h8]

/-- C9 at a concrete input: with `LOG=verbose` and the verbosity `WARN ||| FATAL` before
the call, the call returns with the same verbosity and the warning is logged. -/
theorem C9_unrecognised_level_unchanged_witness :
    SetLogLevelFromEnv (Setenv emptyEnviron (gostr "LOG") (gostr "verbose")) (gostr "LOG")
      (WARN ||| FATAL) =
      Outcome.returned
        [⟨Severity.info, "$%s=%q", [Arg.str (gostr "LOG"), Arg.str (gostr "verbose")]⟩,
         ⟨Severity.warn, "loglevel of value=%v does not exist. Leaving default.",
           [Arg.str (gostr "verbose")]⟩]
        (WARN ||| FATAL) :=
  C9_unrecognised_level_unchanged (Setenv emptyEnviron (gostr "LOG") (gostr "verbose"))
    (gostr "LOG") (gostr "verbose") (WARN ||| FATAL) (by decide) (by decide)

/-- C10: taking the recognised values in the order `none`, `fatal`, `panic`, `error`,
`warn`, `info`, `debug`, `trace`, `SetLogLevelFromEnv` configures for each value a
verbosity that enables every level enabled for the previous value; `warn` enables exactly
warn, error, panic and fatal, `trace` enables every level, and an absent key configures
the same verbosity as `info`. -/
theorem C10_levels_cumulative (environ : Environ) (key : GoString) (level : Level) :
    (SetLogLevelFromEnv (Setenv environ key (gostr "none")) key level).result = some NONE ∧
    (SetLogLevelFromEnv (Setenv environ key (gostr "fatal")) key level).result = some FATAL ∧
    (SetLogLevelFromEnv (Setenv environ key (gostr "panic")) key level).result
      = some (PANIC ||| FATAL) ∧
    (SetLogLevelFromEnv (Setenv environ key (gostr "error")) key level).result
      = some (ERROR ||| PANIC ||| FATAL) ∧
    (SetLogLevelFromEnv (Setenv environ key (gostr "warn")) key level).result
      = some (WARN ||| ERROR ||| PANIC ||| FATAL) ∧
    (SetLogLevelFromEnv (Setenv environ key (gostr "info")) key level).result = some NORM ∧
    (SetLogLevelFromEnv (Setenv environ key (gostr "debug")) key level).result
      = some (NORM ||| DEBUG) ∧
    (SetLogLevelFromEnv (Setenv environ key (gostr "trace")) key level).result = some ALL ∧
    List.Chain' (fun a b => enabledLevels a ⊆ enabledLevels b)
      [NONE, FATAL, PANIC ||| FATAL, ERROR ||| PANIC ||| FATAL,
        WARN ||| ERROR ||| PANIC ||| FATAL, NORM, NORM ||| DEBUG, ALL] ∧
    enabledLevels (WARN ||| ERROR ||| PANIC ||| FATAL) = [FATAL, PANIC, ERROR, WARN] ∧
    enabledLevels ALL = [FATAL, PANIC, ERROR, WARN, INFO, DEBUG, TRACE] ∧
    (SetLogLevelFromEnv (Unsetenv environ key) key level).result =
      (SetLogLevelFromEnv (Setenv environ key (gostr "info")) key level).result := by
  have hset : ∀ v : GoString, (Setenv environ key v key).getD (gostr "info") = v := by
    intro v
    simp [Setenv]
  have hunset : (Unsetenv environ key key).getD (gostr "info") = gostr "info" := by
    simp [Unsetenv]
  simp only [SetLogLevelFromEnv_result, hset, hunset]
  refine ⟨rfl, rfl, rfl, rfl, rfl, rfl, rfl, rfl, ?_, ?_, ?_⟩
  · simp only [List.chain'_cons, List.chain'_singleton, and_true]
    decide
  · decide
  · decide

end Envp
